import Mathlib

/-!
Verification of `src/embedded-service/src/ec_type/generator/ec-memory-generator.py`,
a YAML-schema to Rust/C struct-definition generator.

The Python program is shallowly embedded:
* YAML values occurring as field specifications become the inductive `Yaml`
  (a scalar string token, or a mapping).
* A schema (the result of `yaml.safe_load` on a well-formed schema document)
  becomes `Schema`: an ordered association list of record name to an ordered
  association list of field name to `Yaml` field spec, mirroring Python's
  insertion-ordered `dict.items()` iteration.
* Python f-string interpolation of a YAML value becomes `pyFmt`
  (str of a string is the string itself; str of a dict renders the
  single-quoted entries between braces using repr of the parts), modelled
  by `pyRepr`/`pyReprEntries`.
* The generator's functions `yaml_to_rust`, `yaml_to_c`, `type_to_c_type`,
  `check_for_32bit_alignment`, `is_primitive_type` keep their names.
  String accumulation (`+=` in loops) becomes `List.foldl` with `++`.
* The `__main__` driver becomes `run`, with the file system and write
  syscall outcomes passed in explicitly.
-/

/-- A YAML value as it occurs in a field specification: either a bare scalar
string token, or a mapping from string keys to YAML values. -/
inductive Yaml where
  | str (s : String)
  | map (es : List (String × Yaml))

/-- A record definition: ordered mapping from field name to field spec. -/
abbrev RecordDef : Type := List (String × Yaml)

/-- A schema: ordered mapping from record name to record definition. -/
abbrev Schema : Type := List (String × RecordDef)

/-- The single-quote character, written via its code point. -/
def squote : String := String.singleton (Char.ofNat 39)

mutual

/-- Python repr of a YAML value (as used for elements inside a printed
dict): strings are single-quoted, dicts render their entries between
braces. -/
def pyRepr : Yaml → String
  | .str s => squote ++ s ++ squote
  | .map es => "\x7b" ++ pyReprEntries es ++ "\x7d"

/-- Python repr of the comma-separated entries of a dict. -/
def pyReprEntries : List (String × Yaml) → String
  | [] => ""
  | [(k, v)] => squote ++ k ++ squote ++ ": " ++ pyRepr v
  | (k, v) :: e :: rest => squote ++ k ++ squote ++ ": " ++ pyRepr v ++ ", " ++ pyReprEntries (e :: rest)

end

/-- Python str of a YAML value, as produced by f-string interpolation:
a string interpolates to itself, a dict to its repr rendering. -/
def pyFmt : Yaml → String
  | .str s => s
  | .map es => pyRepr (.map es)

/-- Python subscript read and `in` membership test on a dict represented
as an association list: the value of the last entry with the given key
(later duplicate keys win when a YAML mapping is loaded into a Python
dict). -/
def lookupLast (es : List (String × Yaml)) (k : String) : Option Yaml :=
  (es.reverse.find? (fun p => p.1 = k)).map (fun p => p.2)

/-- `type_to_c_type` from the source: translate the six primitive tokens to
C fixed-width type names; return anything else unchanged. -/
def type_to_c_type : Yaml → Yaml
  | .str "u32" => .str "uint32_t"
  | .str "u16" => .str "uint16_t"
  | .str "u8" => .str "uint8_t"
  | .str "i32" => .str "int32_t"
  | .str "i16" => .str "int16_t"
  | .str "i8" => .str "int8_t"
  | t => t

/-- The body of `yaml_to_rust`'s inner field loop: one emitted Rust field
line. A dict with a `type` key uses that key's value; any other value is
interpolated whole. -/
def rustFieldLine (f : String × Yaml) : String :=
  match f.2 with
  | .map es =>
    match lookupLast es "type" with
    | some t => "    pub " ++ f.1 ++ ": " ++ pyFmt t ++ ",\n"
    | none => "    pub " ++ f.1 ++ ": " ++ pyFmt (.map es) ++ ",\n"
  | v => "    pub " ++ f.1 ++ ": " ++ pyFmt v ++ ",\n"

/-- The body of `yaml_to_c`'s inner field loop: one emitted C field line.
A dict with a `type` key passes that key's value through `type_to_c_type`;
any other value is interpolated whole, untranslated. -/
def cFieldLine (f : String × Yaml) : String :=
  match f.2 with
  | .map es =>
    match lookupLast es "type" with
    | some t => "    " ++ pyFmt (type_to_c_type t) ++ " " ++ f.1 ++ ";\n"
    | none => "    " ++ pyFmt (.map es) ++ " " ++ f.1 ++ ";\n"
  | v => "    " ++ pyFmt v ++ " " ++ f.1 ++ ";\n"

/-- `yaml_to_rust` from the source: fixed preamble with the version
constant, then one struct per record in schema order, each with its fields
in declared order. -/
def yaml_to_rust (data : Schema) : String :=
  let rust_code := "//! EC Internal Data Structures\n\n"
    ++ "#[allow(missing_docs)]\n"
    ++ "pub const EC_MEMMAP_VERSION: Version = Version \x7bmajor: 0, minor: 1, spin: 0, res0: 0\x7d;\n\n"
  data.foldl (fun code kv =>
    let code := code ++ "#[allow(missing_docs)]\n"
      ++ "#[repr(C, packed)]\n"
      ++ "#[derive(Clone, Copy, Debug, Default)]\n"
      ++ "pub struct " ++ kv.1 ++ " \x7b\n"
    let code := kv.2.foldl (fun c f => c ++ rustFieldLine f) code
    code ++ "\x7d\n\n") rust_code

/-- `yaml_to_c` from the source: fixed C preamble, one typedef struct per
record in schema order with fields in declared order, then the pack-pop
pragma and the version constant. -/
def yaml_to_c (data : Schema) : String :=
  let c_code := "#pragma once\n\n"
    ++ "#include <stdint.h>\n\n"
    ++ "#pragma pack(push, 1)\n\n"
  let c_code := data.foldl (fun code kv =>
    let code := code ++ "typedef struct \x7b\n"
    let code := kv.2.foldl (fun c f => c ++ cFieldLine f) code
    code ++ "\x7d " ++ kv.1 ++ ";\n\n") c_code
  c_code ++ "#pragma pack(pop)\n\n"
    ++ "const Version EC_MEMMAP_VERSION = \x7b0x00, 0x01, 0x00, 0x00\x7d;\n"

/-- `is_primitive_type` from the source. -/
def is_primitive_type (s : String) : Bool :=
  s = "u32" || s = "u16" || s = "u8" || s = "i32" || s = "i16" || s = "i8"

/-- Update-or-append assignment `d[k] = v` on a Python dict modelled as an
association list (insertion order preserved; assignment to an existing key
keeps its position). -/
def dictInsert (d : List (String × Nat)) (k : String) (v : Nat) : List (String × Nat) :=
  if d.any (fun p => p.1 = k) then
    d.map (fun p => if p.1 = k then (k, v) else p)
  else d ++ [(k, v)]

/-- Python `d[k]` read on the modelled dict. -/
def dictGet? (d : List (String × Nat)) (k : String) : Option Nat :=
  (d.find? (fun p => p.1 = k)).map (fun p => p.2)

/-- The initial `sizes` table of `check_for_32bit_alignment`. -/
def primSizes : List (String × Nat) :=
  [("u32", 4), ("u16", 2), ("u8", 1), ("i32", 4), ("i16", 2), ("i8", 1)]

/-- The inner field loop of `check_for_32bit_alignment` over one record
named `key`: a dict-valued field with a `type` key adds `sizes[type]` to
the running size (raising `KeyError` when the token is absent from the
table, or `TypeError` when the type value is itself a dict and therefore
unhashable); every field iteration then stores `sizes[key] = size`. -/
def checkFields (key : String) (fields : List (String × Yaml))
    (sizes : List (String × Nat)) (size : Nat) :
    Except String (List (String × Nat)) :=
  match fields with
  | [] => .ok sizes
  | (_, v) :: rest =>
    match v with
    | .map es =>
      match lookupLast es "type" with
      | some (.str ts) =>
        match dictGet? sizes ts with
        | some n => checkFields key rest (dictInsert sizes key (size + n)) (size + n)
        | none => .error ("KeyError: " ++ squote ++ ts ++ squote)
      | some (.map _) => .error "TypeError: unhashable type"
      | none => checkFields key rest (dictInsert sizes key size) size
    | .str _ => checkFields key rest (dictInsert sizes key size) size

/-- The outer record loop of `check_for_32bit_alignment`, threading the
shared `sizes` table through every record in schema order. -/
def checkRecords (data : Schema) (sizes : List (String × Nat)) :
    Except String (List (String × Nat)) :=
  match data with
  | [] => .ok sizes
  | (key, value) :: rest =>
    match checkFields key value sizes 0 with
    | .ok sizes2 => checkRecords rest sizes2
    | .error e => .error e

/-- The final warning sweep of `check_for_32bit_alignment`: the entries of
the `sizes` table whose key is not a primitive name and whose size is not a
multiple of 4, in table order. -/
def collectWarnings (sizes : List (String × Nat)) : List (String × Nat) :=
  sizes.filter (fun p => !is_primitive_type p.1 && p.2 % 4 != 0)

/-- The text of one printed alignment warning. -/
def renderWarn (p : String × Nat) : String :=
  "Warning: " ++ p.1 ++ " is not 32-bit aligned. Size: " ++ toString p.2 ++ " bytes"

/-- `check_for_32bit_alignment` from the source: run the accumulation pass
over the shared `sizes` table, then print the warnings. The result is the
list of printed warning lines; an uncaught Python exception during the
pass becomes `.error`. -/
def check_for_32bit_alignment (data : Schema) : Except String (List String) :=
  (checkRecords data primSizes).map (fun sizes => (collectWarnings sizes).map renderWarn)

/-- The observable outcome of one run of the generator's `__main__`. -/
structure Outcome where
  printed : List String
  rustWritten : Option String
  cWritten : Option String
  crashed : Option String
deriving DecidableEq

/-- The per-file report message of the Rust write attempt. -/
def rustWriteMsg (rustErr : Option String) : String :=
  match rustErr with
  | none => "Rust code has been written to structure.rs"
  | some e => "An error occurred while writing to structure.rs: " ++ e

/-- The per-file report message of the C write attempt. -/
def cWriteMsg (cErr : Option String) : String :=
  match cErr with
  | none => "C code has been written to ecmemory.h"
  | some e => "An error occurred while writing to ecmemory.h: " ++ e

/-- The `__main__` driver of the source, given one positional argument.
`contents` is what the file system holds at `file_path` (`none` when the
file does not exist, in which case `open_file` prints `File not found:`
and returns Python `None`, and `yaml.safe_load(None)` then raises an
`AttributeError` that nothing catches). YAML parsing itself is abstracted:
`data` stands for `yaml.safe_load(contents)`. `rustErr`/`cErr` are the
outcomes of the two write attempts (`none` = success, `some e` = the
exception caught while writing that file). -/
def run (file_path : String) (contents : Option String) (data : Schema)
    (rustErr cErr : Option String) : Outcome :=
  match contents with
  | none =>
    { printed := ["File not found: " ++ file_path]
      rustWritten := none
      cWritten := none
      crashed := some "AttributeError" }
  | some _ =>
    match check_for_32bit_alignment data with
    | .error e =>
      { printed := [], rustWritten := none, cWritten := none, crashed := some e }
    | .ok warns =>
      { printed := warns ++ [rustWriteMsg rustErr, cWriteMsg cErr]
        rustWritten := if rustErr = none then some (yaml_to_rust data) else none
        cWritten := if cErr = none then some (yaml_to_c data) else none
        crashed := none }

/-- Concatenation of the renderings of a list, in list order. The normal
form to which the accumulating folds of the emitters are proved equal. -/
def strConcatMap (g : α → String) : List α → String
  | [] => ""
  | x :: xs => g x ++ strConcatMap g xs

/-- The fixed text `yaml_to_rust` emits before any struct. -/
def rustPreamble : String :=
  "//! EC Internal Data Structures\n\n"
    ++ "#[allow(missing_docs)]\n"
    ++ "pub const EC_MEMMAP_VERSION: Version = Version \x7bmajor: 0, minor: 1, spin: 0, res0: 0\x7d;\n\n"

/-- The Rust struct `yaml_to_rust` emits for one record: the attribute
lines, the struct header with the record name, the field lines in declared
order, and the closing brace. -/
def rustStructOf (kv : String × RecordDef) : String :=
  "#[allow(missing_docs)]\n"
    ++ "#[repr(C, packed)]\n"
    ++ "#[derive(Clone, Copy, Debug, Default)]\n"
    ++ "pub struct " ++ kv.1 ++ " \x7b\n"
    ++ strConcatMap rustFieldLine kv.2 ++ "\x7d\n\n"

/-- The fixed text `yaml_to_c` emits before any struct. -/
def cPreamble : String :=
  "#pragma once\n\n"
    ++ "#include <stdint.h>\n\n"
    ++ "#pragma pack(push, 1)\n\n"

/-- The typedef struct `yaml_to_c` emits for one record: the struct
opener, the field lines in declared order, and the closing line naming the
record. -/
def cStructOf (kv : String × RecordDef) : String :=
  "typedef struct \x7b\n"
    ++ strConcatMap cFieldLine kv.2
    ++ "\x7d " ++ kv.1 ++ ";\n\n"

/-- The fixed text `yaml_to_c` emits after all structs. -/
def cTail : String :=
  "#pragma pack(pop)\n\n"
    ++ "const Version EC_MEMMAP_VERSION = \x7b0x00, 0x01, 0x00, 0x00\x7d;\n"

/-- The Rust version-constant line as a function of its four component
values, used to state that both outputs carry the same logical version. -/
def rustVersionOf (major minor spin res0 : Nat) : String :=
  "pub const EC_MEMMAP_VERSION: Version = Version \x7bmajor: " ++ toString major
    ++ ", minor: " ++ toString minor
    ++ ", spin: " ++ toString spin
    ++ ", res0: " ++ toString res0 ++ "\x7d;\n"

/-- A two-digit hexadecimal byte literal for a single-digit value. -/
def hexByte (n : Nat) : String := "0x0" ++ toString n

/-- The C version-constant line as a function of its four component
values. -/
def cVersionOf (major minor spin res0 : Nat) : String :=
  "const Version EC_MEMMAP_VERSION = \x7b" ++ hexByte major
    ++ ", " ++ hexByte minor
    ++ ", " ++ hexByte spin
    ++ ", " ++ hexByte res0 ++ "\x7d;\n"

/-- A field spec whose mapping form (if any) carries a scalar token naming
one of the six primitives: such a field can never make the size-table
lookup of `check_for_32bit_alignment` raise. -/
def fieldTypeResolvesPrim (f : String × Yaml) : Bool :=
  match f.2 with
  | .map es =>
    match lookupLast es "type" with
    | some (.str s) => is_primitive_type s
    | some (.map _) => false
    | none => true
  | .str _ => true

/-- Every field spec of the schema satisfies `fieldTypeResolvesPrim`.
Under this condition the accumulation pass of `check_for_32bit_alignment`
completes without raising. -/
def mappingTypesResolvePrim (data : Schema) : Bool :=
  data.all (fun r => r.2.all fieldTypeResolvesPrim)

/-- A concrete two-record schema in mapping form: `Bad` accumulates 4 + 1
= 5 bytes and is misaligned, `Good` accumulates 4 bytes and is aligned. -/
def c2ex : Schema :=
  [("Bad", [("a", Yaml.map [("type", Yaml.str "u32")]), ("b", Yaml.map [("type", Yaml.str "u8")])]),
   ("Good", [("x", Yaml.map [("type", Yaml.str "u32")])])]

/-- The size table the accumulation pass computes on `c2ex`. -/
def c2exSizes : List (String × Nat) := primSizes ++ [("Bad", 5), ("Good", 4)]

theorem foldl_append_eq (g : α → String) (l : List α) (init : String) :
    l.foldl (fun c x => c ++ g x) init = init ++ strConcatMap g l := by
  induction l generalizing init with
  | nil => simp [strConcatMap, String.append_empty]
  | cons x xs ih => simp [strConcatMap, ih, String.append_assoc]

theorem rust_foldl_aux (data : Schema) (init : String) :
    data.foldl (fun code kv =>
      (kv.2.foldl (fun c f => c ++ rustFieldLine f)
        (code ++ "#[allow(missing_docs)]\n" ++ "#[repr(C, packed)]\n"
          ++ "#[derive(Clone, Copy, Debug, Default)]\n"
          ++ "pub struct " ++ kv.1 ++ " \x7b\n")) ++ "\x7d\n\n") init
    = init ++ strConcatMap rustStructOf data := by
  induction data generalizing init with
  | nil => simp [strConcatMap, String.append_empty]
  | cons kv rest ih =>
    simp only [List.foldl_cons]
    rw [ih, foldl_append_eq]
    simp [rustStructOf, String.append_assoc, strConcatMap]

theorem yaml_to_rust_eq (data : Schema) :
    yaml_to_rust data = rustPreamble ++ strConcatMap rustStructOf data :=
  rust_foldl_aux data rustPreamble

theorem c_foldl_aux (data : Schema) (init : String) :
    data.foldl (fun code kv =>
      (kv.2.foldl (fun c f => c ++ cFieldLine f)
        (code ++ "typedef struct \x7b\n")) ++ "\x7d " ++ kv.1 ++ ";\n\n") init
    = init ++ strConcatMap cStructOf data := by
  induction data generalizing init with
  | nil => simp [strConcatMap, String.append_empty]
  | cons kv rest ih =>
    simp only [List.foldl_cons]
    rw [ih, foldl_append_eq]
    simp [cStructOf, String.append_assoc, strConcatMap]

theorem yaml_to_c_eq (data : Schema) :
    yaml_to_c data = cPreamble ++ strConcatMap cStructOf data ++ cTail := by
  show (data.foldl _ cPreamble) ++ _ ++ _ = _
  rw [c_foldl_aux]
  simp [cTail, String.append_assoc]

theorem type_to_c_fmt (t : String) :
    pyFmt (type_to_c_type (Yaml.str t)) =
      (if t = "u32" then "uint32_t" else if t = "u16" then "uint16_t"
       else if t = "u8" then "uint8_t" else if t = "i32" then "int32_t"
       else if t = "i16" then "int16_t" else if t = "i8" then "int8_t" else t) := by
  unfold type_to_c_type
  split <;> simp_all [pyFmt]

set_option maxRecDepth 100000 in
/-- C1, counterexample: on the schema with one record `R` holding the one
bare-token field `a: u32`, the C emitter renders the field as `u32 a;`,
leaving the bare primitive token untranslated — the string `uint32_t`
occurs nowhere in the output — contrary to the claim that the C emitter
renders every primitive-token field, bare or mapping-form, as the
fixed-width C name. -/
theorem c1_counterexample :
    yaml_to_c [("R", [("a", Yaml.str "u32")])]
      = "#pragma once\n\n#include <stdint.h>\n\n#pragma pack(push, 1)\n\ntypedef struct \x7b\n    u32 a;\n\x7d R;\n\n#pragma pack(pop)\n\nconst Version EC_MEMMAP_VERSION = \x7b0x00, 0x01, 0x00, 0x00\x7d;\n"
    ∧ ¬ List.IsInfix "uint32_t".data (yaml_to_c [("R", [("a", Yaml.str "u32")])]).data :=
  ⟨rfl, by decide⟩

/-- C1, amended: `type_to_c_type` maps exactly the six primitive tokens to
their fixed-width C names and passes every other token through unchanged;
the Rust emitter renders the token verbatim for both bare and mapping-form
fields; the C emitter applies `type_to_c_type` only to mapping-form fields
and renders a bare token verbatim. -/
theorem c1_amended (n t : String) (v : Yaml) :
    pyFmt (type_to_c_type (Yaml.str t)) =
      (if t = "u32" then "uint32_t" else if t = "u16" then "uint16_t"
       else if t = "u8" then "uint8_t" else if t = "i32" then "int32_t"
       else if t = "i16" then "int16_t" else if t = "i8" then "int8_t" else t)
    ∧ rustFieldLine (n, Yaml.str t) = "    pub " ++ n ++ ": " ++ t ++ ",\n"
    ∧ rustFieldLine (n, Yaml.map [("type", v)]) = "    pub " ++ n ++ ": " ++ pyFmt v ++ ",\n"
    ∧ cFieldLine (n, Yaml.str t) = "    " ++ t ++ " " ++ n ++ ";\n"
    ∧ cFieldLine (n, Yaml.map [("type", v)]) = "    " ++ pyFmt (type_to_c_type v) ++ " " ++ n ++ ";\n" := by
  refine ⟨type_to_c_fmt t, rfl, ?_, rfl, ?_⟩
  · simp [rustFieldLine, lookupLast]
  · simp [cFieldLine, lookupLast]

/-- C5: each emitted output is the fixed preamble followed by one struct
per record in schema order, and each record renders as its header followed
by the concatenation of its field lines in the declared field order (no
reordering, no sorting), in both the Rust and the C output. -/
theorem c5_field_order (data : Schema) :
    yaml_to_rust data = rustPreamble ++ strConcatMap rustStructOf data
    ∧ yaml_to_c data = cPreamble ++ strConcatMap cStructOf data ++ cTail :=
  ⟨yaml_to_rust_eq data, yaml_to_c_eq data⟩

/-- C6: for every schema, the Rust output carries the version constant as
the field-initialized struct literal with values (0, 1, 0, 0) right after
its two fixed header lines, and the C output ends with the
brace-initialized aggregate of the same four values in hexadecimal; both
lines are schema-independent. -/
theorem c6_version (data : Schema) :
    (∃ r, yaml_to_rust data
        = "//! EC Internal Data Structures\n\n" ++ "#[allow(missing_docs)]\n"
          ++ (rustVersionOf 0 1 0 0 ++ "\n") ++ r)
    ∧ (∃ c, yaml_to_c data = c ++ cVersionOf 0 1 0 0) := by
  constructor
  · refine ⟨strConcatMap rustStructOf data, ?_⟩
    rw [yaml_to_rust_eq]
    have h : rustPreamble = "//! EC Internal Data Structures\n\n" ++ "#[allow(missing_docs)]\n"
        ++ (rustVersionOf 0 1 0 0 ++ "\n") := by decide
    rw [h]
  · refine ⟨cPreamble ++ strConcatMap cStructOf data ++ "#pragma pack(pop)\n\n", ?_⟩
    rw [yaml_to_c_eq]
    have h : cTail = "#pragma pack(pop)\n\n" ++ cVersionOf 0 1 0 0 := by decide
    rw [h]
    simp [String.append_assoc]

/-- C7: both emitters are deterministic — two runs on equal `Schema`
values produce identical output text, for the Rust and the C emitter
alike. -/
theorem c7_deterministic (d1 d2 : Schema) (h : d1 = d2) :
    yaml_to_rust d1 = yaml_to_rust d2 ∧ yaml_to_c d1 = yaml_to_c d2 :=
  ⟨congrArg yaml_to_rust h, congrArg yaml_to_c h⟩

/-- Witness for `c7_deterministic` at a concrete one-record schema. -/
theorem c7_deterministic_witness :
    ([("A", [("x", Yaml.str "u8")])] : Schema) = [("A", [("x", Yaml.str "u8")])]
    ∧ (yaml_to_rust [("A", [("x", Yaml.str "u8")])] = yaml_to_rust [("A", [("x", Yaml.str "u8")])]
       ∧ yaml_to_c [("A", [("x", Yaml.str "u8")])] = yaml_to_c [("A", [("x", Yaml.str "u8")])]) :=
  ⟨rfl, c7_deterministic _ _ rfl⟩

/-- C4: when the schema file is missing, the run prints exactly one line
reporting `File not found:` with the exact path given, writes neither
output file, and aborts with an uncaught exception before generation. -/
theorem c4_missing_file (file_path : String) (data : Schema) (rustErr cErr : Option String) :
    run file_path none data rustErr cErr =
      { printed := ["File not found: " ++ file_path]
        rustWritten := none
        cWritten := none
        crashed := some "AttributeError" } := rfl

/-- C10: a mapping-form field spec without a `type` key is rendered by
both emitters as the Python string representation of the whole mapping,
placed verbatim in the type position of the field declaration; no error is
reported and the schema is not rejected. -/
theorem c10_mapping_without_type (k n : String) (es : List (String × Yaml))
    (h : lookupLast es "type" = none) :
    yaml_to_rust [(k, [(n, Yaml.map es)])]
      = rustPreamble
        ++ "#[allow(missing_docs)]\n#[repr(C, packed)]\n#[derive(Clone, Copy, Debug, Default)]\npub struct "
        ++ k ++ " \x7b\n" ++ "    pub " ++ n ++ ": " ++ pyRepr (Yaml.map es) ++ ",\n" ++ "\x7d\n\n"
    ∧ yaml_to_c [(k, [(n, Yaml.map es)])]
      = cPreamble ++ "typedef struct \x7b\n    "
        ++ pyRepr (Yaml.map es) ++ " " ++ n ++ ";\n"
        ++ "\x7d " ++ k ++ ";\n\n" ++ cTail := by
  constructor
  · rw [yaml_to_rust_eq]
    simp [strConcatMap, rustStructOf, rustFieldLine, h, pyFmt, String.append_empty, ← String.append_assoc]
  · rw [yaml_to_c_eq]
    simp [strConcatMap, cStructOf, cFieldLine, h, pyFmt, String.append_empty, ← String.append_assoc]

/-- Witness for `c10_mapping_without_type`: a one-entry mapping field spec
whose only key is `size`. -/
theorem c10_witness :
    lookupLast [("size", Yaml.str "4")] "type" = none
    ∧ (yaml_to_rust [("R", [("a", Yaml.map [("size", Yaml.str "4")])])]
        = rustPreamble
          ++ "#[allow(missing_docs)]\n#[repr(C, packed)]\n#[derive(Clone, Copy, Debug, Default)]\npub struct "
          ++ "R" ++ " \x7b\n" ++ "    pub " ++ "a" ++ ": " ++ pyRepr (Yaml.map [("size", Yaml.str "4")]) ++ ",\n" ++ "\x7d\n\n"
       ∧ yaml_to_c [("R", [("a", Yaml.map [("size", Yaml.str "4")])])]
        = cPreamble ++ "typedef struct \x7b\n    "
          ++ pyRepr (Yaml.map [("size", Yaml.str "4")]) ++ " " ++ "a" ++ ";\n"
          ++ "\x7d " ++ "R" ++ ";\n\n" ++ cTail) :=
  ⟨rfl, c10_mapping_without_type "R" "a" [("size", Yaml.str "4")] rfl⟩

theorem dictInsert_cons_ne (p : String × Nat) (d : List (String × Nat)) (k : String) (v : Nat)
    (h : p.1 ≠ k) : dictInsert (p :: d) k v = p :: dictInsert d k v := by
  unfold dictInsert
  simp [List.any_cons, h]
  split <;> simp_all

theorem dictGet?_insert (d : List (String × Nat)) (k : String) (v : Nat) :
    dictGet? (dictInsert d k v) k = some v := by
  induction d with
  | nil => simp [dictInsert, dictGet?]
  | cons p d ih =>
    by_cases hp : p.1 = k
    · unfold dictInsert
      simp [List.any_cons, hp, dictGet?]
    · rw [dictInsert_cons_ne p d k v hp]
      simp [dictGet?, List.find?_cons, hp] at ih ⊢
      exact ih

theorem dictInsert_keys_mem (d : List (String × Nat)) (k : String) (v : Nat) (s : String)
    (h : s ∈ d.map Prod.fst) : s ∈ (dictInsert d k v).map Prod.fst := by
  unfold dictInsert
  split
  · rw [List.map_map]
    have he : (Prod.fst ∘ fun p : String × Nat => if p.1 = k then (k, v) else p)
        = Prod.fst := by
      funext p
      by_cases hp : p.1 = k <;> simp [hp]
    rw [he]
    exact h
  · rw [List.map_append]
    exact List.mem_append_left _ h

theorem mem_keys_get (d : List (String × Nat)) (s : String)
    (h : s ∈ d.map Prod.fst) : ∃ v, dictGet? d s = some v := by
  induction d with
  | nil => simp at h
  | cons p d ih =>
    by_cases hp : p.1 = s
    · refine ⟨p.2, ?_⟩
      unfold dictGet?
      rw [List.find?_cons_of_pos _ (by simp [hp])]
      rfl
    · rw [List.map_cons] at h
      rcases List.mem_cons.mp h with h1 | h2
      · exact absurd h1.symm hp
      · obtain ⟨v, hv⟩ := ih h2
        refine ⟨v, ?_⟩
        unfold dictGet? at hv ⊢
        rw [List.find?_cons_of_neg _ (by simp [hp])]
        exact hv

theorem checkFields_total (k : String) (fs : List (String × Yaml)) :
    ∀ (d : List (String × Nat)) (size : Nat),
    fs.all fieldTypeResolvesPrim = true →
    (∀ s, is_primitive_type s = true → s ∈ d.map Prod.fst) →
    ∃ d2, checkFields k fs d size = .ok d2
      ∧ (∀ s, is_primitive_type s = true → s ∈ d2.map Prod.fst) := by
  induction fs with
  | nil => exact fun d size _ hd => ⟨d, rfl, hd⟩
  | cons f rest ih =>
    intro d size hall hd
    rw [List.all_cons, Bool.and_eq_true] at hall
    obtain ⟨hf, hrest⟩ := hall
    obtain ⟨fn, v⟩ := f
    cases v with
    | str s =>
      obtain ⟨d2, hd2, hp2⟩ := ih (dictInsert d k size) size hrest
        (fun s hs => dictInsert_keys_mem d k size s (hd s hs))
      exact ⟨d2, by simp only [checkFields]; exact hd2, hp2⟩
    | map es =>
      cases hl : lookupLast es "type" with
      | none =>
        obtain ⟨d2, hd2, hp2⟩ := ih (dictInsert d k size) size hrest
          (fun s hs => dictInsert_keys_mem d k size s (hd s hs))
        exact ⟨d2, by simp only [checkFields, hl]; exact hd2, hp2⟩
      | some t =>
        cases t with
        | str ts =>
          have hprim : is_primitive_type ts = true := by
            simp only [fieldTypeResolvesPrim, hl] at hf
            exact hf
          obtain ⟨n, hn⟩ := mem_keys_get d ts (hd ts hprim)
          obtain ⟨d2, hd2, hp2⟩ := ih (dictInsert d k (size + n)) (size + n) hrest
            (fun s hs => dictInsert_keys_mem d k (size + n) s (hd s hs))
          exact ⟨d2, by simp only [checkFields, hl, hn]; exact hd2, hp2⟩
        | map es2 =>
          simp only [fieldTypeResolvesPrim, hl] at hf
          exact absurd hf (by simp)

theorem checkRecords_total (data : Schema) :
    ∀ (d : List (String × Nat)),
    data.all (fun r => r.2.all fieldTypeResolvesPrim) = true →
    (∀ s, is_primitive_type s = true → s ∈ d.map Prod.fst) →
    ∃ d2, checkRecords data d = .ok d2 := by
  induction data with
  | nil => exact fun d _ _ => ⟨d, rfl⟩
  | cons r rest ih =>
    intro d hall hd
    rw [List.all_cons, Bool.and_eq_true] at hall
    obtain ⟨hr, hrest⟩ := hall
    obtain ⟨d1, hd1, hp1⟩ := checkFields_total r.1 r.2 d 0 hr hd
    obtain ⟨d2, hd2⟩ := ih d1 hrest hp1
    refine ⟨d2, ?_⟩
    simp only [checkRecords, hd1]
    exact hd2

theorem dictInsert_fresh (d : List (String × Nat)) (k : String) (v : Nat)
    (h : k ∉ d.map Prod.fst) : dictInsert d k v = d ++ [(k, v)] := by
  unfold dictInsert
  rw [if_neg]
  intro hc
  rw [List.any_eq_true] at hc
  obtain ⟨p, hp, he⟩ := hc
  rw [decide_eq_true_eq] at he
  exact h (he ▸ List.mem_map_of_mem Prod.fst hp)

theorem dictInsert_append_self (d : List (String × Nat)) (k : String) (v w : Nat)
    (h : k ∉ d.map Prod.fst) : dictInsert (d ++ [(k, v)]) k w = d ++ [(k, w)] := by
  unfold dictInsert
  rw [if_pos]
  · rw [List.map_append]
    congr 1
    · rw [List.map_congr_left, List.map_id]
      intro p hp
      have : p.1 ≠ k := fun he => h (he ▸ List.mem_map_of_mem Prod.fst hp)
      simp [this]
    · simp
  · rw [List.any_eq_true]
    exact ⟨(k, v), List.mem_append_right d (by simp), by simp⟩

theorem dictGet?_append_right (d e : List (String × Nat)) (k : String)
    (h : k ∉ d.map Prod.fst) : dictGet? (d ++ e) k = dictGet? e k := by
  induction d with
  | nil => simp
  | cons p d ih =>
    rw [List.map_cons] at h
    have hp : p.1 ≠ k := fun he => h (by simp [he])
    have hd : k ∉ d.map Prod.fst := fun hm => h (by simp [hm])
    unfold dictGet? at ih ⊢
    rw [List.cons_append, List.find?_cons_of_neg _ (by simp [hp])]
    exact ih hd

theorem checkFields_shape (k : String) (fs : List (String × Yaml)) :
    ∀ (d : List (String × Nat)) (s : Nat) (r : List (String × Nat)),
    k ∉ d.map Prod.fst →
    checkFields k fs (d ++ [(k, s)]) s = .ok r →
    ∃ n, r = d ++ [(k, n)] := by
  induction fs with
  | nil =>
    intro d s r hk h
    simp only [checkFields] at h
    exact ⟨s, (Except.ok.inj h).symm⟩
  | cons f rest ih =>
    intro d s r hk h
    obtain ⟨fn, v⟩ := f
    cases v with
    | str t =>
      simp only [checkFields, dictInsert_append_self d k s s hk] at h
      exact ih d s r hk h
    | map es =>
      cases hl : lookupLast es "type" with
      | none =>
        simp only [checkFields, hl, dictInsert_append_self d k s s hk] at h
        exact ih d s r hk h
      | some t =>
        cases t with
        | str ts =>
          cases hg : dictGet? (d ++ [(k, s)]) ts with
          | some n =>
            simp only [checkFields, hl, hg, dictInsert_append_self d k s (s + n) hk] at h
            exact ih d (s + n) r hk h
          | none =>
            simp only [checkFields, hl, hg] at h
            cases h
        | map es2 =>
          simp only [checkFields, hl] at h
          cases h

theorem checkFields_start (k : String) (fs : List (String × Yaml))
    (d : List (String × Nat)) (r : List (String × Nat))
    (hne : fs ≠ []) (hk : k ∉ d.map Prod.fst)
    (h : checkFields k fs d 0 = .ok r) :
    ∃ n, r = d ++ [(k, n)] := by
  cases fs with
  | nil => exact absurd rfl hne
  | cons f rest =>
    obtain ⟨fn, v⟩ := f
    cases v with
    | str t =>
      simp only [checkFields, dictInsert_fresh d k 0 hk] at h
      exact checkFields_shape k rest d 0 r hk h
    | map es =>
      cases hl : lookupLast es "type" with
      | none =>
        simp only [checkFields, hl, dictInsert_fresh d k 0 hk] at h
        exact checkFields_shape k rest d 0 r hk h
      | some t =>
        cases t with
        | str ts =>
          cases hg : dictGet? d ts with
          | some n =>
            simp only [checkFields, hl, hg, dictInsert_fresh d k (0 + n) hk] at h
            exact checkFields_shape k rest d (0 + n) r hk h
          | none =>
            simp only [checkFields, hl, hg] at h
            cases h
        | map es2 =>
          simp only [checkFields, hl] at h
          cases h

theorem checkRecords_shape (data : Schema) :
    ∀ (d : List (String × Nat)) (r : List (String × Nat)),
    (data.map Prod.fst).Nodup →
    (∀ k ∈ data.map Prod.fst, k ∉ d.map Prod.fst) →
    (∀ rec ∈ data, rec.2 ≠ []) →
    checkRecords data d = .ok r →
    ∃ ents, r = d ++ ents ∧ ents.map Prod.fst = data.map Prod.fst := by
  induction data with
  | nil =>
    intro d r _ _ _ h
    simp only [checkRecords] at h
    exact ⟨[], by simp [(Except.ok.inj h).symm], rfl⟩
  | cons rec rest ih =>
    intro d r hnd hdisj hne h
    cases hc : checkFields rec.1 rec.2 d 0 with
    | error e =>
      simp only [checkRecords, hc] at h
      cases h
    | ok d1 =>
      simp only [checkRecords, hc] at h
      obtain ⟨n, hd1⟩ := checkFields_start rec.1 rec.2 d d1
        (hne rec (List.mem_cons_self rec rest)) (hdisj rec.1 (by simp)) hc
      subst hd1
      rw [List.map_cons, List.nodup_cons] at hnd
      obtain ⟨hnotin, hnd'⟩ := hnd
      obtain ⟨ents, hr, hkeys⟩ := ih (d ++ [(rec.1, n)]) r hnd'
        (fun k hkm => by
          rw [List.map_append]
          intro hmem
          rcases List.mem_append.mp hmem with hm | hm
          · exact hdisj k (by simp [hkm]) hm
          · simp at hm
            exact hnotin (hm ▸ hkm))
        (fun rec2 hm => hne rec2 (List.mem_cons_of_mem rec hm)) h
      refine ⟨(rec.1, n) :: ents, ?_, by simp [hkeys]⟩
      rw [hr, List.append_assoc, List.singleton_append]

theorem assoc_countP (l : List (String × Nat)) (k : String) (n : Nat) :
    ∀ (q : (String × Nat) → Bool),
    (l.map Prod.fst).Nodup →
    dictGet? l k = some n →
    l.countP (fun p => decide (p.1 = k) && q p) = if q (k, n) then 1 else 0 := by
  induction l with
  | nil => intro q _ h; simp [dictGet?] at h
  | cons p l ih =>
    intro q hnd hget
    rw [List.map_cons, List.nodup_cons] at hnd
    obtain ⟨hpn, hnd'⟩ := hnd
    by_cases hp : p.1 = k
    · have hv : p.2 = n := by
        unfold dictGet? at hget
        rw [List.find?_cons_of_pos _ (by simp [hp])] at hget
        simpa using hget
      obtain ⟨p1, p2⟩ := p
      simp only at hp hv
      subst hp
      subst hv
      rw [List.countP_cons]
      have hzero : l.countP (fun p => decide (p.1 = p1) && q p) = 0 := by
        rw [List.countP_eq_zero]
        intro a ha
        have : a.1 ≠ p1 := by
          intro he
          have hm : a.1 ∈ l.map Prod.fst := List.mem_map_of_mem Prod.fst ha
          rw [he] at hm
          exact hpn hm
        simp [this]
      rw [hzero]
      simp
    · rw [List.countP_cons]
      have hh : (decide (p.1 = k) && q p) = false := by simp [hp]
      rw [hh]
      have hget' : dictGet? l k = some n := by
        unfold dictGet? at hget ⊢
        rw [List.find?_cons_of_neg _ (by simp [hp])] at hget
        exact hget
      simp [ih q hnd' hget']

/-- C9: the accumulation pass stores a record's accumulated size into the
same `sizes` table that seeds the six primitive sizes, keyed by the record
name: whenever processing a first record `a` succeeded and left its
computed size `sa` in the table, a later record `b` with a mapping-form
field whose `type` is `a` accumulates `sa` into its own size, which is in
turn stored under `b`. -/
theorem c9_shared_table (a : String) (fa : RecordDef) (b f : String)
    (sizesA : List (String × Nat)) (sa : Nat)
    (h1 : checkRecords [(a, fa)] primSizes = .ok sizesA)
    (h2 : dictGet? sizesA a = some sa) :
    checkRecords [(a, fa), (b, [(f, Yaml.map [("type", Yaml.str a)])])] primSizes
      = .ok (dictInsert sizesA b sa)
    ∧ dictGet? (dictInsert sizesA b sa) b = some sa := by
  have hf : checkFields a fa primSizes 0 = .ok sizesA := by
    unfold checkRecords at h1
    cases hc : checkFields a fa primSizes 0 with
    | ok s2 =>
      rw [hc] at h1
      simp [checkRecords] at h1
      rw [h1]
    | error e =>
      rw [hc] at h1
      simp at h1
  refine ⟨?_, dictGet?_insert sizesA b sa⟩
  simp [checkRecords, hf, checkFields, lookupLast, h2]

set_option maxRecDepth 40000 in
/-- Witness for `c9_shared_table`: record `A` of one `u8` mapping-form
field computes size 1, and record `B` referencing `A` as its field type
receives that size 1. -/
theorem c9_shared_table_witness :
    checkRecords [("A", [("x", Yaml.map [("type", Yaml.str "u8")])])] primSizes
      = .ok (primSizes ++ [("A", 1)])
    ∧ dictGet? (primSizes ++ [("A", 1)]) "A" = some 1
    ∧ (checkRecords [("A", [("x", Yaml.map [("type", Yaml.str "u8")])]),
        ("B", [("y", Yaml.map [("type", Yaml.str "A")])])] primSizes
        = .ok (dictInsert (primSizes ++ [("A", 1)]) "B" 1)
       ∧ dictGet? (dictInsert (primSizes ++ [("A", 1)]) "B" 1) "B" = some 1) :=
  ⟨rfl, rfl, c9_shared_table "A" _ "B" "y" _ 1 rfl rfl⟩

set_option maxRecDepth 40000 in
/-- C2, counterexample: on the bare-token schema `Bad: a: u32, b: u8` from
the claim, the checker prints no warning at all and stores size 0 for
`Bad`, because bare-token fields are skipped by the accumulation pass —
contrary to the claimed size 5 and warning. -/
theorem c2_counterexample :
    check_for_32bit_alignment [("Bad", [("a", Yaml.str "u32"), ("b", Yaml.str "u8")])] = .ok []
    ∧ checkRecords [("Bad", [("a", Yaml.str "u32"), ("b", Yaml.str "u8")])] primSizes
      = .ok (primSizes ++ [("Bad", 0)]) :=
  ⟨rfl, rfl⟩

/-- C2, amended: only mapping-form fields with a known `type` contribute
to a record's accumulated size. For schemas with pairwise-distinct,
non-primitive record names whose records are all nonempty and whose
accumulation pass completes, the checker prints the rendered warnings of
the misaligned table entries, and every record has a stored size `n` such
that it appears in exactly one warning entry when `n` is not a multiple of
4 and in none when it is. -/
theorem c2_amended (data : Schema)
    (hnd : (data.map Prod.fst).Nodup)
    (hnp : ∀ k ∈ data.map Prod.fst, is_primitive_type k = false)
    (hne : ∀ rec ∈ data, rec.2 ≠ [])
    (sizes : List (String × Nat))
    (hrun : checkRecords data primSizes = .ok sizes) :
    check_for_32bit_alignment data = .ok ((collectWarnings sizes).map renderWarn)
    ∧ ∀ k fs, (k, fs) ∈ data →
      ∃ n, dictGet? sizes k = some n
        ∧ (n % 4 = 0 → (collectWarnings sizes).countP (fun p => p.1 = k) = 0)
        ∧ (n % 4 ≠ 0 → (k, n) ∈ collectWarnings sizes
            ∧ (collectWarnings sizes).countP (fun p => p.1 = k) = 1) := by
  have hdisj : ∀ k ∈ data.map Prod.fst, k ∉ primSizes.map Prod.fst := by
    intro k hk hmem
    have hf := hnp k hk
    have hT : is_primitive_type k = true := by
      simp [primSizes] at hmem
      rcases hmem with h | h | h | h | h | h <;> simp [is_primitive_type, h]
    rw [hT] at hf
    cases hf
  obtain ⟨ents, hsz, hkeys⟩ := checkRecords_shape data primSizes sizes hnd hdisj hne hrun
  subst hsz
  refine ⟨by simp [check_for_32bit_alignment, hrun, Except.map], ?_⟩
  intro k fs hkfs
  have hk : k ∈ data.map Prod.fst := List.mem_map_of_mem Prod.fst hkfs
  have hkents : k ∈ ents.map Prod.fst := by rw [hkeys]; exact hk
  have hknp : k ∉ primSizes.map Prod.fst := hdisj k hk
  obtain ⟨n, hn⟩ := mem_keys_get ents k hkents
  have hget : dictGet? (primSizes ++ ents) k = some n := by
    rw [dictGet?_append_right primSizes ents k hknp]
    exact hn
  have hwarnsplit : collectWarnings (primSizes ++ ents) = collectWarnings ents := by
    unfold collectWarnings
    rw [List.filter_append]
    have hpe : primSizes.filter (fun p => !is_primitive_type p.1 && p.2 % 4 != 0) = [] := rfl
    rw [hpe, List.nil_append]
  have hentnd : (ents.map Prod.fst).Nodup := by rw [hkeys]; exact hnd
  have hcount := assoc_countP ents k n
    (fun p => !is_primitive_type p.1 && p.2 % 4 != 0) hentnd hn
  have hc2 : (collectWarnings ents).countP (fun p => decide (p.1 = k))
      = if ((!is_primitive_type k && n % 4 != 0) : Bool) then 1 else 0 := by
    unfold collectWarnings
    rw [List.countP_filter]
    exact hcount
  have hknotprim : is_primitive_type k = false := hnp k hk
  refine ⟨n, hget, ?_, ?_⟩
  · intro h4
    rw [hwarnsplit, hc2]
    simp [hknotprim, h4]
  · intro h4
    refine ⟨?_, ?_⟩
    · rw [hwarnsplit]
      unfold collectWarnings
      rw [List.mem_filter]
      refine ⟨?_, by simp [hknotprim, h4]⟩
      unfold dictGet? at hn
      obtain ⟨a, ha, hae⟩ := Option.map_eq_some'.mp hn
      have ha1 : a.1 = k := by
        have := List.find?_some ha
        simpa using this
      have haa : a = (k, n) := by
        obtain ⟨a1, a2⟩ := a
        simp only at ha1 hae
        rw [ha1, hae]
      rw [← haa]
      exact List.mem_of_find?_eq_some ha
    · rw [hwarnsplit, hc2]
      simp [hknotprim, h4]

set_option maxRecDepth 40000 in
/-- Witness for `c2_amended` on `c2ex`: `Bad` (size 5) draws exactly one
warning, `Good` (size 4) draws none. -/
theorem c2_amended_witness :
    ((c2ex.map Prod.fst).Nodup)
    ∧ (∀ k ∈ c2ex.map Prod.fst, is_primitive_type k = false)
    ∧ (∀ rec ∈ c2ex, rec.2 ≠ [])
    ∧ checkRecords c2ex primSizes = .ok c2exSizes
    ∧ (check_for_32bit_alignment c2ex = .ok ((collectWarnings c2exSizes).map renderWarn)
       ∧ ∀ k fs, (k, fs) ∈ c2ex →
         ∃ n, dictGet? c2exSizes k = some n
           ∧ (n % 4 = 0 → (collectWarnings c2exSizes).countP (fun p => p.1 = k) = 0)
           ∧ (n % 4 ≠ 0 → (k, n) ∈ collectWarnings c2exSizes
               ∧ (collectWarnings c2exSizes).countP (fun p => p.1 = k) = 1)) := by
  have h1 : (c2ex.map Prod.fst).Nodup := by decide
  have h2 : ∀ k ∈ c2ex.map Prod.fst, is_primitive_type k = false := by decide
  have h3 : ∀ rec ∈ c2ex, rec.2 ≠ [] := by simp [c2ex]
  have h4 : checkRecords c2ex primSizes = .ok c2exSizes := rfl
  exact ⟨h1, h2, h3, h4, c2_amended c2ex h1 h2 h3 c2exSizes h4⟩

set_option maxRecDepth 40000 in
/-- C3, counterexample: a loader-accepted schema whose single field is a
mapping-form spec with the opaque type token `Foo` makes the checker raise
an uncaught `KeyError`, which aborts the run before either emitter runs —
contrary to the claim that the checker never raises and never blocks
generation. -/
theorem c3_counterexample :
    check_for_32bit_alignment [("R", [("a", Yaml.map [("type", Yaml.str "Foo")])])]
      = .error ("KeyError: " ++ squote ++ "Foo" ++ squote)
    ∧ run "schema.yaml" (some "R:\n  a:\n    type: Foo\n")
        [("R", [("a", Yaml.map [("type", Yaml.str "Foo")])])] none none
      = { printed := []
          rustWritten := none
          cWritten := none
          crashed := some ("KeyError: " ++ squote ++ "Foo" ++ squote) } :=
  ⟨rfl, rfl⟩

/-- C3, amended: on schemas all of whose mapping-form field types are
primitive tokens (bare tokens, including opaque and nested names, are
unrestricted, since the checker skips them), the checker completes without
raising, produces only its diagnostic warning lines, and generation then
runs both emitters on the unchanged schema. -/
theorem c3_amended (data : Schema) (h : mappingTypesResolvePrim data = true) :
    (∃ ws, check_for_32bit_alignment data = .ok ws)
    ∧ ∀ (path text : String), ∃ ws,
      run path (some text) data none none =
        { printed := ws ++ [rustWriteMsg none, cWriteMsg none]
          rustWritten := some (yaml_to_rust data)
          cWritten := some (yaml_to_c data)
          crashed := none } := by
  obtain ⟨d2, hd2⟩ := checkRecords_total data primSizes h (fun s hs => by
    simp only [is_primitive_type, Bool.or_eq_true, decide_eq_true_eq] at hs
    rcases hs with ((((h | h) | h) | h) | h) | h <;> simp [primSizes, h])
  have hok : check_for_32bit_alignment data
      = .ok ((collectWarnings d2).map renderWarn) := by
    simp [check_for_32bit_alignment, hd2, Except.map]
  refine ⟨⟨_, hok⟩, fun path text => ⟨(collectWarnings d2).map renderWarn, ?_⟩⟩
  simp [run, hok]

set_option maxRecDepth 40000 in
/-- Witness for `c3_amended`: a schema mixing a primitive mapping-form
field with a bare opaque token field. -/
theorem c3_amended_witness :
    mappingTypesResolvePrim
      [("R", [("a", Yaml.map [("type", Yaml.str "u16")]), ("b", Yaml.str "Opaque")])] = true
    ∧ ((∃ ws, check_for_32bit_alignment
          [("R", [("a", Yaml.map [("type", Yaml.str "u16")]), ("b", Yaml.str "Opaque")])] = .ok ws)
       ∧ ∀ (path text : String), ∃ ws,
         run path (some text)
           [("R", [("a", Yaml.map [("type", Yaml.str "u16")]), ("b", Yaml.str "Opaque")])] none none =
           { printed := ws ++ [rustWriteMsg none, cWriteMsg none]
             rustWritten := some (yaml_to_rust
               [("R", [("a", Yaml.map [("type", Yaml.str "u16")]), ("b", Yaml.str "Opaque")])])
             cWritten := some (yaml_to_c
               [("R", [("a", Yaml.map [("type", Yaml.str "u16")]), ("b", Yaml.str "Opaque")])])
             crashed := none }) :=
  ⟨rfl, c3_amended _ rfl⟩

/-- C8: after a successful check, the run performs two independent write
attempts and prints one report line per file — success with the filename,
or an error with the filename and the cause; the outcome of the C write
(content and report) is unaffected by the outcome of the Rust write, and
conversely. -/
theorem c8_independent_writes (path text : String) (data : Schema)
    (rustErr cErr : Option String) (warns : List String)
    (h : check_for_32bit_alignment data = .ok warns) :
    (run path (some text) data rustErr cErr).printed
      = warns ++ [rustWriteMsg rustErr, cWriteMsg cErr]
    ∧ (rustWriteMsg rustErr = "Rust code has been written to structure.rs"
       ∨ ∃ e, rustErr = some e
           ∧ rustWriteMsg rustErr = "An error occurred while writing to structure.rs: " ++ e)
    ∧ (cWriteMsg cErr = "C code has been written to ecmemory.h"
       ∨ ∃ e, cErr = some e
           ∧ cWriteMsg cErr = "An error occurred while writing to ecmemory.h: " ++ e)
    ∧ (run path (some text) data rustErr cErr).cWritten
        = (run path (some text) data none cErr).cWritten
    ∧ (run path (some text) data rustErr cErr).rustWritten
        = (run path (some text) data rustErr none).rustWritten := by
  refine ⟨by simp [run, h], ?_, ?_, by simp [run, h], by simp [run, h]⟩
  · cases rustErr with
    | none => exact Or.inl rfl
    | some e => exact Or.inr ⟨e, rfl, rfl⟩
  · cases cErr with
    | none => exact Or.inl rfl
    | some e => exact Or.inr ⟨e, rfl, rfl⟩

set_option maxRecDepth 40000 in
/-- Witness for `c8_independent_writes`: a run whose Rust write fails with
a disk-full error still performs and reports the C write. -/
theorem c8_witness :
    check_for_32bit_alignment [("A", [("x", Yaml.str "u8")])] = .ok []
    ∧ ((run "p" (some "t") [("A", [("x", Yaml.str "u8")])] (some "disk full") none).printed
        = [] ++ [rustWriteMsg (some "disk full"), cWriteMsg none]
      ∧ (rustWriteMsg (some "disk full") = "Rust code has been written to structure.rs"
         ∨ ∃ e, (some "disk full" : Option String) = some e
             ∧ rustWriteMsg (some "disk full") = "An error occurred while writing to structure.rs: " ++ e)
      ∧ (cWriteMsg none = "C code has been written to ecmemory.h"
         ∨ ∃ e, (none : Option String) = some e
             ∧ cWriteMsg none = "An error occurred while writing to ecmemory.h: " ++ e)
      ∧ (run "p" (some "t") [("A", [("x", Yaml.str "u8")])] (some "disk full") none).cWritten
          = (run "p" (some "t") [("A", [("x", Yaml.str "u8")])] none none).cWritten
      ∧ (run "p" (some "t") [("A", [("x", Yaml.str "u8")])] (some "disk full") none).rustWritten
          = (run "p" (some "t") [("A", [("x", Yaml.str "u8")])] (some "disk full") none).rustWritten) :=
  ⟨rfl, c8_independent_writes "p" "t" _ (some "disk full") none [] rfl⟩
